import Mathlib

/-
  Verification of the block-parser abstraction layer of liquid-rust
  (src/compiler/block.rs): the trait `ParseBlock`, its cloning support
  trait `ParseBlockClone`, the function adapter `FnBlockParser`, and the
  unifying handle `BoxedBlockParser` with its two `From` conversions.

  Shallow embedding conventions:
  - `Token`, `Element`, `LiquidOptions` and `Renderable` are opaque to this
    module; they are modelled as wrappers around `Nat` so that concrete
    witnesses can be evaluated.
  - `Result<T>` from the error module is modelled as `Except Error T`,
    where `Error` carries the failure message.
  - A concrete type implementing the trait `ParseBlock` is modelled as
    `ParseBlockObj`: an opaque internal state together with a parse method
    reading that state.  The derived `Clone` of such a concrete type is a
    memberwise copy.
  - `Box<ParseBlock>` is an owned heap allocation; to express structural
    independence of clones (mutation through one box not affecting the
    other) the heap is made explicit as `Store`, and a box is an address
    into it.  `Box::new` is `Store.alloc`, which places the value at a
    fresh address.
-/

namespace LiquidBlock

/-- Opaque lexical unit produced by the lexer (`lexer::Token`). -/
structure Token where
  val : Nat
deriving DecidableEq, Repr

/-- Opaque already-parsed structural unit (`lexer::Element`). -/
structure Element where
  val : Nat
deriving DecidableEq, Repr

/-- Opaque read-only compiler configuration (`LiquidOptions`). -/
structure LiquidOptions where
  val : Nat
deriving DecidableEq, Repr

/-- Opaque renderable node (`interpreter::Renderable`, behind `Box`). -/
structure Renderable where
  val : Nat
deriving DecidableEq, Repr

/-- Structured parse failure (`error::Error`), carrying its message. -/
structure Error where
  msg : String
deriving DecidableEq, Repr

/-- Embedding of `error::Result<T> = Result<T, Error>`. -/
abbrev Result (α : Type) := Except Error α

/-- Embedding of the type alias
`pub type FnParseBlock = fn(&str, &[Token], &[Element], &LiquidOptions) -> Result<Box<Renderable>>`. -/
abbrev FnParseBlock :=
  String → List Token → List Element → LiquidOptions → Result Renderable

/-- A concrete type implementing the trait `ParseBlock`: an arbitrary
internal state (opaque, modelled as `Nat`) and a parse method that may read
that state.  `parse` takes `&self`, so the method only reads the state. -/
structure ParseBlockObj where
  state : Nat
  parseFn : Nat → String → List Token → List Element → LiquidOptions → Result Renderable

/-- The trait method
`fn parse(&self, tag_name, arguments, tokens, options) -> Result<Box<Renderable>>`
of a concrete parser object. -/
def ParseBlockObj.parse (self : ParseBlockObj) (tag_name : String)
    (arguments : List Token) (tokens : List Element) (options : LiquidOptions) :
    Result Renderable :=
  self.parseFn self.state tag_name arguments tokens options

/-- The `Clone` implementation of a concrete parser type: a memberwise
copy of the value (the bound `T: Clone` in
`impl<T> ParseBlockClone for T where T: 'static + ParseBlock + Clone`). -/
def ParseBlockObj.clone (self : ParseBlockObj) : ParseBlockObj :=
  self

/-- The heap: every `Box<ParseBlock>` is an address into this store.
`next` is the first never-allocated address. -/
structure Store where
  objs : Nat → ParseBlockObj
  next : Nat

/-- `Box::new(o)`: place `o` at a fresh address, returning the extended
store and the address of the new box. -/
def Store.alloc (σ : Store) (o : ParseBlockObj) : Store × Nat :=
  (⟨fun a => if a = σ.next then o else σ.objs a, σ.next + 1⟩, σ.next)

/-- Mutation of the internal state of the object stored at address `a`.
The source module itself never mutates (parse takes `&self`); this
operation models the mutation the cloning law of the spec quantifies
over ("mutating any internal state reachable only through one clone"). -/
def Store.setState (σ : Store) (a : Nat) (v : Nat) : Store :=
  ⟨fun a' => if a' = a then { σ.objs a with state := v } else σ.objs a', σ.next⟩

/-- The hidden duplication operation `fn clone_box(&self) -> Box<ParseBlock>`,
as provided by the blanket impl: `Box::new(self.clone())`. -/
def clone_box (σ : Store) (a : Nat) : Store × Nat :=
  σ.alloc ((σ.objs a).clone)

/-- Embedding of `struct FnBlockParser { pub parser: FnParseBlock }`. -/
structure FnBlockParser where
  parser : FnParseBlock

/-- `FnBlockParser::new`. -/
def FnBlockParser.new (parser : FnParseBlock) : FnBlockParser :=
  ⟨parser⟩

/-- `impl ParseBlock for FnBlockParser`: calls the stored function with all
four arguments unchanged: `(self.parser)(tag_name, arguments, tokens, options)`. -/
def FnBlockParser.parse (self : FnBlockParser) (tag_name : String)
    (arguments : List Token) (tokens : List Element) (options : LiquidOptions) :
    Result Renderable :=
  self.parser tag_name arguments tokens options

/-- Embedding of `enum BlockParserEnum { Fun(FnBlockParser), Heap(Box<ParseBlock>) }`.
The `Heap` case holds the address of its owned box. -/
inductive BlockParserEnum where
  | Fun (f : FnBlockParser)
  | Heap (a : Nat)

/-- Embedding of `pub struct BoxedBlockParser { parser: BlockParserEnum }`. -/
structure BoxedBlockParser where
  parser : BlockParserEnum

/-- `impl ParseBlock for BoxedBlockParser`: matches on the held case and
forwards the call to that case.  The `Heap` case dereferences its box,
hence the store argument. -/
def BoxedBlockParser.parse (self : BoxedBlockParser) (σ : Store)
    (tag_name : String) (arguments : List Token) (tokens : List Element)
    (options : LiquidOptions) : Result Renderable :=
  match self.parser with
  | .Fun f => f.parse tag_name arguments tokens options
  | .Heap a => (σ.objs a).parse tag_name arguments tokens options

/-- The derived `Clone` of `BoxedBlockParser`: the `Fun` case copies the
(copyable) function adapter; the `Heap` case clones its box through
`impl Clone for Box<ParseBlock>`, which calls `clone_box`. -/
def BoxedBlockParser.clone (self : BoxedBlockParser) (σ : Store) :
    Store × BoxedBlockParser :=
  match self.parser with
  | .Fun f => (σ, ⟨.Fun f⟩)
  | .Heap a =>
      let p := clone_box σ a
      (p.1, ⟨.Heap p.2⟩)

/-- `impl From<FnParseBlock> for BoxedBlockParser`:
wraps the function in `FnBlockParser::new` and selects the `Fun` case. -/
def BoxedBlockParser.from_fn (parser : FnParseBlock) : BoxedBlockParser :=
  ⟨BlockParserEnum.Fun (FnBlockParser.new parser)⟩

/-- `impl From<Box<ParseBlock>> for BoxedBlockParser`:
stores the box (here: its address) in the `Heap` case. -/
def BoxedBlockParser.from_box (parser : Nat) : BoxedBlockParser :=
  ⟨BlockParserEnum.Heap parser⟩

/-- A handle is valid in a store when the box it owns (if any) has really
been allocated. -/
def BoxedBlockParser.validIn (self : BoxedBlockParser) (σ : Store) : Prop :=
  match self.parser with
  | .Fun _ => True
  | .Heap a => a < σ.next

/-- The address owned by a handle: the `Heap` case owns its box, the `Fun`
case owns no heap state. -/
def BoxedBlockParser.ownsAddr (self : BoxedBlockParser) (a : Nat) : Prop :=
  self.parser = .Heap a

/-- The behaviour of a handle as a concrete parser object: this is the
denotation of `impl ParseBlock for BoxedBlockParser` used when a handle is
itself boxed into the store (ownership of the inner box is exclusive, so
snapshotting the owned object is exact). -/
def BoxedBlockParser.as_obj (self : BoxedBlockParser) (σ : Store) : ParseBlockObj :=
  match self.parser with
  | .Fun f => ⟨0, fun _ n a b c => f.parse n a b c⟩
  | .Heap addr => σ.objs addr

/-- `BoxedBlockParser::from(Box::new(h.clone()))`: clone the handle, box
the clone (as a `ParseBlock` trait object) and re-erase it as the `Heap`
case of a new handle. -/
def BoxedBlockParser.rebox (self : BoxedBlockParser) (σ : Store) :
    Store × BoxedBlockParser :=
  let p := self.clone σ
  let q := p.1.alloc (p.2.as_obj p.1)
  (q.1, BoxedBlockParser.from_box q.2)

/-- Dispatch through a handle agrees with the parse method of its
denotation as a parser object. -/
theorem as_obj_parse (h : BoxedBlockParser) (σ : Store) (n : String)
    (a : List Token) (b : List Element) (c : LiquidOptions) :
    (h.as_obj σ).parse n a b c = h.parse σ n a b c := by
  cases hp : h.parser with
  | Fun f =>
      simp [BoxedBlockParser.as_obj, BoxedBlockParser.parse, ParseBlockObj.parse, hp]
  | Heap addr =>
      simp [BoxedBlockParser.as_obj, BoxedBlockParser.parse, hp]

/-- C1: for every function reference `f` of the parse signature and all
inputs, `BoxedBlockParser::from(f).parse(n, a, b, c) = f(n, a, b, c)`:
the function-adapter variant and the dispatch of the handle pass all four
inputs and the output through unchanged. -/
theorem from_fn_parse_passthrough (f : FnParseBlock) (σ : Store) (n : String)
    (a : List Token) (b : List Element) (c : LiquidOptions) :
    (BoxedBlockParser.from_fn f).parse σ n a b c = f n a b c := by
  rfl

/-- C2: for every concrete parser object `o`, boxing it (`Box::new(o)`) and
converting the box into a handle gives a handle whose parse returns exactly
`o.parse(n, a, b, c)`. -/
theorem from_box_parse_passthrough (o : ParseBlockObj) (σ : Store) (n : String)
    (a : List Token) (b : List Element) (c : LiquidOptions) :
    (BoxedBlockParser.from_box (σ.alloc o).2).parse (σ.alloc o).1 n a b c
      = o.parse n a b c := by
  simp [BoxedBlockParser.from_box, BoxedBlockParser.parse, Store.alloc]

/-- C3: cloning law.  For a valid handle `h`, the clone parses exactly as
the original, and the two are structurally independent: mutating the state
of the box owned by the clone does not change the parse behaviour of the
original, and mutating the box owned by the original does not change the
parse behaviour of the clone. -/
theorem clone_parse_eq_and_independent (σ : Store) (h : BoxedBlockParser)
    (hv : h.validIn σ) (n : String) (a : List Token) (b : List Element)
    (c : LiquidOptions) (v : Nat) :
    ((h.clone σ).2.parse (h.clone σ).1 n a b c = h.parse σ n a b c)
    ∧ (∀ a', (h.clone σ).2.ownsAddr a' →
        h.parse (((h.clone σ).1).setState a' v) n a b c = h.parse σ n a b c)
    ∧ (∀ a', h.ownsAddr a' →
        (h.clone σ).2.parse (((h.clone σ).1).setState a' v) n a b c
          = (h.clone σ).2.parse (h.clone σ).1 n a b c) := by
  cases hp : h.parser with
  | Fun f =>
      refine ⟨?_, ?_, ?_⟩
      · simp [BoxedBlockParser.clone, BoxedBlockParser.parse, hp]
      · intro a' ha'
        simp [BoxedBlockParser.clone, BoxedBlockParser.ownsAddr, hp] at ha'
      · intro a' ha'
        simp [BoxedBlockParser.ownsAddr, hp] at ha'
  | Heap addr =>
      have hlt : addr < σ.next := by
        simpa [BoxedBlockParser.validIn, hp] using hv
      have hne : addr ≠ σ.next := Nat.ne_of_lt hlt
      refine ⟨?_, ?_, ?_⟩
      · simp [BoxedBlockParser.clone, BoxedBlockParser.parse, hp, clone_box,
          Store.alloc, ParseBlockObj.clone]
      · intro a' ha'
        have ha'' : a' = σ.next := by
          have := by
            simpa [BoxedBlockParser.clone, BoxedBlockParser.ownsAddr, hp,
              clone_box, Store.alloc] using ha'
          exact this.symm
        subst ha''
        simp [BoxedBlockParser.clone, BoxedBlockParser.parse, hp, clone_box,
          Store.alloc, Store.setState, hne]
      · intro a' ha'
        have ha'' : a' = addr := by
          have := by
            simpa [BoxedBlockParser.ownsAddr, hp] using ha'
          exact this.symm
        subst ha''
        simp [BoxedBlockParser.clone, BoxedBlockParser.parse, hp, clone_box,
          Store.alloc, Store.setState, ParseBlockObj.clone, hne, Ne.symm hne]

/-- C3 witness: a concrete store with one stateful parser object;
the cloning law is instantiated on it. -/
theorem clone_parse_eq_and_independent_witness :
    (BoxedBlockParser.from_box 0).validIn
        ⟨fun _ => ⟨5, fun s _ _ _ _ => Except.ok ⟨s⟩⟩, 1⟩
    ∧ (((BoxedBlockParser.from_box 0).clone
          ⟨fun _ => ⟨5, fun s _ _ _ _ => Except.ok ⟨s⟩⟩, 1⟩).2.parse
        ((BoxedBlockParser.from_box 0).clone
          ⟨fun _ => ⟨5, fun s _ _ _ _ => Except.ok ⟨s⟩⟩, 1⟩).1
        "t" [] [] ⟨0⟩
        = (BoxedBlockParser.from_box 0).parse
            ⟨fun _ => ⟨5, fun s _ _ _ _ => Except.ok ⟨s⟩⟩, 1⟩ "t" [] [] ⟨0⟩)
      ∧ (∀ a', ((BoxedBlockParser.from_box 0).clone
            ⟨fun _ => ⟨5, fun s _ _ _ _ => Except.ok ⟨s⟩⟩, 1⟩).2.ownsAddr a' →
          (BoxedBlockParser.from_box 0).parse
            ((((BoxedBlockParser.from_box 0).clone
              ⟨fun _ => ⟨5, fun s _ _ _ _ => Except.ok ⟨s⟩⟩, 1⟩).1).setState a' 99)
            "t" [] [] ⟨0⟩
            = (BoxedBlockParser.from_box 0).parse
                ⟨fun _ => ⟨5, fun s _ _ _ _ => Except.ok ⟨s⟩⟩, 1⟩ "t" [] [] ⟨0⟩)
      ∧ (∀ a', (BoxedBlockParser.from_box 0).ownsAddr a' →
          ((BoxedBlockParser.from_box 0).clone
            ⟨fun _ => ⟨5, fun s _ _ _ _ => Except.ok ⟨s⟩⟩, 1⟩).2.parse
            ((((BoxedBlockParser.from_box 0).clone
              ⟨fun _ => ⟨5, fun s _ _ _ _ => Except.ok ⟨s⟩⟩, 1⟩).1).setState a' 99)
            "t" [] [] ⟨0⟩
            = ((BoxedBlockParser.from_box 0).clone
                ⟨fun _ => ⟨5, fun s _ _ _ _ => Except.ok ⟨s⟩⟩, 1⟩).2.parse
                ((BoxedBlockParser.from_box 0).clone
                  ⟨fun _ => ⟨5, fun s _ _ _ _ => Except.ok ⟨s⟩⟩, 1⟩).1
                "t" [] [] ⟨0⟩) :=
  ⟨Nat.zero_lt_one,
    clone_parse_eq_and_independent
      ⟨fun _ => ⟨5, fun s _ _ _ _ => Except.ok ⟨s⟩⟩, 1⟩
      (BoxedBlockParser.from_box 0) Nat.zero_lt_one "t" [] [] ⟨0⟩ 99⟩

/-- C4: error transparency.  If the wrapped function returns a failure with
message `M`, the handle built from it returns that failure unchanged; the
same holds for a wrapped boxed object; and conversely every failure the
handle returns is the failure its wrapped parser returned (the handle never
synthesizes, wraps or recovers from errors). -/
theorem error_transparent (σ : Store) (f : FnParseBlock) (addr : Nat)
    (h : BoxedBlockParser) (n : String) (a : List Token) (b : List Element)
    (c : LiquidOptions) (M : String) (e : Error) :
    (f n a b c = Except.error ⟨M⟩ →
        (BoxedBlockParser.from_fn f).parse σ n a b c = Except.error ⟨M⟩)
    ∧ ((σ.objs addr).parse n a b c = Except.error ⟨M⟩ →
        (BoxedBlockParser.from_box addr).parse σ n a b c = Except.error ⟨M⟩)
    ∧ (h.parse σ n a b c = Except.error e →
        (h.as_obj σ).parse n a b c = Except.error e) := by
  refine ⟨?_, ?_, ?_⟩
  · intro hf
    simpa [BoxedBlockParser.from_fn, BoxedBlockParser.parse,
      FnBlockParser.parse, FnBlockParser.new] using hf
  · intro ho
    simpa [BoxedBlockParser.from_box, BoxedBlockParser.parse] using ho
  · intro hh
    rw [as_obj_parse]
    exact hh

/-- C4 witness: a function that always fails with message "boom";
the handle returns exactly that failure. -/
theorem error_transparent_witness :
    ((fun _ _ _ _ => Except.error ⟨"boom"⟩ : FnParseBlock) "t" [] [] ⟨0⟩
        = Except.error ⟨"boom"⟩)
    ∧ (BoxedBlockParser.from_fn (fun _ _ _ _ => Except.error ⟨"boom"⟩)).parse
        ⟨fun _ => ⟨0, fun _ _ _ _ _ => Except.ok ⟨0⟩⟩, 0⟩ "t" [] [] ⟨0⟩
        = Except.error ⟨"boom"⟩ :=
  ⟨rfl,
    (error_transparent ⟨fun _ => ⟨0, fun _ _ _ _ _ => Except.ok ⟨0⟩⟩, 0⟩
      (fun _ _ _ _ => Except.error ⟨"boom"⟩) 0
      (BoxedBlockParser.from_fn (fun _ _ _ _ => Except.error ⟨"boom"⟩))
      "t" [] [] ⟨0⟩ "boom" ⟨"boom"⟩).1 rfl⟩

/-- C5: construction invariant.  Converting a function reference always
yields the `Fun` case, converting a box always yields the `Heap` case,
every handle arises from exactly one of the two conversions, and the two
cases are distinct (no default or third case exists). -/
theorem handle_two_cases_only :
    (∀ f : FnParseBlock,
        (BoxedBlockParser.from_fn f).parser = .Fun (FnBlockParser.new f))
    ∧ (∀ a : Nat, (BoxedBlockParser.from_box a).parser = .Heap a)
    ∧ (∀ h : BoxedBlockParser,
        (∃ f, h = BoxedBlockParser.from_fn f) ∨
        (∃ a, h = BoxedBlockParser.from_box a))
    ∧ (∀ (f : FnBlockParser) (a : Nat),
        BlockParserEnum.Fun f ≠ BlockParserEnum.Heap a) := by
  refine ⟨fun f => rfl, fun a => rfl, ?_, ?_⟩
  · intro h
    obtain ⟨p⟩ := h
    cases p with
    | Fun f =>
        exact Or.inl ⟨f.parser, rfl⟩
    | Heap a =>
        exact Or.inr ⟨a, rfl⟩
  · intro f a hcontra
    cases hcontra

/-- C6: the hidden duplication operation.  `clone_box` (provided
uniformly for every cloneable concrete type by the blanket impl) allocates
a fresh box holding exactly `self.clone()`, and the duplicate box behaves
exactly like the original under parse. -/
theorem clone_box_is_boxed_clone (σ : Store) (addr : Nat) (n : String)
    (a : List Token) (b : List Element) (c : LiquidOptions) :
    ((clone_box σ addr).1).objs (clone_box σ addr).2 = (σ.objs addr).clone
    ∧ (clone_box σ addr).2 = σ.next
    ∧ ((clone_box σ addr).1).next = σ.next + 1
    ∧ (((clone_box σ addr).1).objs (clone_box σ addr).2).parse n a b c
        = (σ.objs addr).parse n a b c := by
  refine ⟨?_, rfl, rfl, ?_⟩
  · simp [clone_box, Store.alloc]
  · simp [clone_box, Store.alloc, ParseBlockObj.clone]

/-- C7: frame property.  The result of parse depends only on the parser
the handle wraps (so parse reads nothing else and, taking every input by
shared reference, mutates nothing: it returns only a value), and cloning a
handle leaves every previously allocated box unchanged (no operation
mutates a handle or its contents after construction). -/
theorem parse_frame_and_clone_preserves (σ σ' : Store) (h : BoxedBlockParser)
    (hagree : ∀ a', h.ownsAddr a' → σ.objs a' = σ'.objs a') (n : String)
    (a : List Token) (b : List Element) (c : LiquidOptions) :
    h.parse σ n a b c = h.parse σ' n a b c
    ∧ (∀ a', a' < σ.next → ((h.clone σ).1).objs a' = σ.objs a')
    ∧ ((h.clone σ).1).next ≥ σ.next := by
  refine ⟨?_, ?_, ?_⟩
  · cases hp : h.parser with
    | Fun f =>
        simp [BoxedBlockParser.parse, hp]
    | Heap addr =>
        have := hagree addr (by simp [BoxedBlockParser.ownsAddr, hp])
        simp [BoxedBlockParser.parse, hp, this]
  · intro a' ha'
    cases hp : h.parser with
    | Fun f =>
        simp [BoxedBlockParser.clone, hp]
    | Heap addr =>
        simp [BoxedBlockParser.clone, hp, clone_box, Store.alloc,
          Nat.ne_of_lt ha']
  · cases hp : h.parser with
    | Fun f =>
        simp [BoxedBlockParser.clone, hp]
    | Heap addr =>
        simp [BoxedBlockParser.clone, hp, clone_box, Store.alloc]

/-- C7 witness: the frame property instantiated on two concrete stores that
agree at the address the handle owns. -/
theorem parse_frame_and_clone_preserves_witness :
    (∀ a', (BoxedBlockParser.from_box 0).ownsAddr a' →
      (⟨fun _ => ⟨7, fun s _ _ _ _ => Except.ok ⟨s⟩⟩, 1⟩ : Store).objs a'
        = (⟨fun _ => ⟨7, fun s _ _ _ _ => Except.ok ⟨s⟩⟩, 2⟩ : Store).objs a')
    ∧ ((BoxedBlockParser.from_box 0).parse
          ⟨fun _ => ⟨7, fun s _ _ _ _ => Except.ok ⟨s⟩⟩, 1⟩ "t" [] [] ⟨0⟩
        = (BoxedBlockParser.from_box 0).parse
            ⟨fun _ => ⟨7, fun s _ _ _ _ => Except.ok ⟨s⟩⟩, 2⟩ "t" [] [] ⟨0⟩
      ∧ (∀ a', a' < (⟨fun _ => ⟨7, fun s _ _ _ _ => Except.ok ⟨s⟩⟩, 1⟩ : Store).next →
          (((BoxedBlockParser.from_box 0).clone
            ⟨fun _ => ⟨7, fun s _ _ _ _ => Except.ok ⟨s⟩⟩, 1⟩).1).objs a'
            = (⟨fun _ => ⟨7, fun s _ _ _ _ => Except.ok ⟨s⟩⟩, 1⟩ : Store).objs a')
      ∧ (((BoxedBlockParser.from_box 0).clone
            ⟨fun _ => ⟨7, fun s _ _ _ _ => Except.ok ⟨s⟩⟩, 1⟩).1).next
          ≥ (⟨fun _ => ⟨7, fun s _ _ _ _ => Except.ok ⟨s⟩⟩, 1⟩ : Store).next) :=
  ⟨fun _ _ => rfl,
    parse_frame_and_clone_preserves
      ⟨fun _ => ⟨7, fun s _ _ _ _ => Except.ok ⟨s⟩⟩, 1⟩
      ⟨fun _ => ⟨7, fun s _ _ _ _ => Except.ok ⟨s⟩⟩, 2⟩
      (BoxedBlockParser.from_box 0) (fun _ _ => rfl) "t" [] [] ⟨0⟩⟩

/-- C9: re-erasure.  The handle itself implements `ParseBlock`, so a clone
of it can be boxed and converted into the `Heap` case of a new handle;
the re-boxed handle parses exactly as the original. -/
theorem rebox_parse_eq (σ : Store) (h : BoxedBlockParser) (n : String)
    (a : List Token) (b : List Element) (c : LiquidOptions) :
    ((h.rebox σ).2).parse (h.rebox σ).1 n a b c = h.parse σ n a b c := by
  cases hp : h.parser with
  | Fun f =>
      simp [BoxedBlockParser.rebox, BoxedBlockParser.clone, hp,
        BoxedBlockParser.as_obj, BoxedBlockParser.from_box, Store.alloc,
        BoxedBlockParser.parse, ParseBlockObj.parse]
  | Heap addr =>
      simp [BoxedBlockParser.rebox, BoxedBlockParser.clone, hp, clone_box,
        BoxedBlockParser.as_obj, BoxedBlockParser.from_box, Store.alloc,
        BoxedBlockParser.parse, ParseBlockObj.clone]

/-- C10: the handle forwards `tag_name` verbatim: its parse result is the
parse result of its wrapped parser at exactly the name the caller supplied,
and the handle distinguishes two names only when the wrapped parser does
(so one instance can serve arbitrary aliases). -/
theorem tag_name_forwarded_verbatim (σ : Store) (h : BoxedBlockParser)
    (n n₁ n₂ : String) (a : List Token) (b : List Element) (c : LiquidOptions) :
    h.parse σ n a b c = (h.as_obj σ).parse n a b c
    ∧ ((h.as_obj σ).parse n₁ a b c = (h.as_obj σ).parse n₂ a b c →
        h.parse σ n₁ a b c = h.parse σ n₂ a b c) := by
  refine ⟨(as_obj_parse h σ n a b c).symm, ?_⟩
  intro halias
  rw [← as_obj_parse, ← as_obj_parse]
  exact halias

/-- C10 witness: a function parser invoked under two different tag names it
ignores; the handle gives equal results under both aliases. -/
theorem tag_name_forwarded_verbatim_witness :
    ((BoxedBlockParser.from_fn (fun _ _ _ _ => Except.ok ⟨3⟩)).as_obj
        ⟨fun _ => ⟨0, fun _ _ _ _ _ => Except.ok ⟨0⟩⟩, 0⟩).parse "x" [] [] ⟨0⟩
      = ((BoxedBlockParser.from_fn (fun _ _ _ _ => Except.ok ⟨3⟩)).as_obj
        ⟨fun _ => ⟨0, fun _ _ _ _ _ => Except.ok ⟨0⟩⟩, 0⟩).parse "y" [] [] ⟨0⟩
    ∧ (BoxedBlockParser.from_fn (fun _ _ _ _ => Except.ok ⟨3⟩)).parse
        ⟨fun _ => ⟨0, fun _ _ _ _ _ => Except.ok ⟨0⟩⟩, 0⟩ "x" [] [] ⟨0⟩
      = (BoxedBlockParser.from_fn (fun _ _ _ _ => Except.ok ⟨3⟩)).parse
        ⟨fun _ => ⟨0, fun _ _ _ _ _ => Except.ok ⟨0⟩⟩, 0⟩ "y" [] [] ⟨0⟩ :=
  ⟨rfl,
    (tag_name_forwarded_verbatim
      ⟨fun _ => ⟨0, fun _ _ _ _ _ => Except.ok ⟨0⟩⟩, 0⟩
      (BoxedBlockParser.from_fn (fun _ _ _ _ => Except.ok ⟨3⟩))
      "x" "x" "y" [] [] ⟨0⟩).2 rfl⟩

end LiquidBlock
